import Mathlib

/-!
Verification of the Transcription repository (three Python sources:
`teams_transcription.py`, `mp4_transcription.py`, `batch_mp4_processor.py`)
against its natural-language specification.

The Python code is shallowly embedded: byte buffers become `List ℕ`,
strings become `List Char`, times (Python floats holding seconds) become `ℚ`,
and the stateful worker loop becomes an explicit step function on a state
record.  Every definition below is translated from the source file named in
its doc comment.
-/

namespace Transcription

/-! ## Audio/worker constants, from `teams_transcription.py` -/

/-- `self.sample_rate = 16000` (`teams_transcription.py`, line 26). -/
def sample_rate : ℕ := 16000

/-- `buffer_size = int(self.sample_rate * buffer_duration * 2)` with
`buffer_duration = 3.0` (`teams_transcription.py`, lines 91-92).  All factors
are integral, so the Python `int(...)` of the float product is exactly this
natural number. -/
def buffer_size : ℕ := sample_rate * 3 * 2

/-- `overlap = buffer_size // 4` (`teams_transcription.py`, line 118). -/
def overlap : ℕ := buffer_size / 4

/-- The spec's target window sample count: sample_rate × 3.0 s of 16-bit
samples (the byte buffer holds two bytes per sample). -/
def target_window_samples : ℕ := sample_rate * 3

theorem buffer_size_eq : buffer_size = 96000 := by decide

theorem overlap_eq : overlap = 24000 := by decide

/-! ## Transcription worker, from `teams_transcription.py` lines 88-124 -/

/-- State of `transcription_worker`: the accumulation buffer `audio_buffer`
(a byte string, modelled as a list of byte values) plus the trace of byte
buffers passed to `transcribe_audio_chunk` (the dispatched ASR windows). -/
structure WorkerState where
  buffer : List ℕ
  asrCalls : List (List ℕ)
deriving Repr, DecidableEq

/-- One iteration of the worker loop body in which a frame was pulled from
the queue (`teams_transcription.py` lines 97-119): the frame is appended to
`audio_buffer`; if the buffer has reached `buffer_size` bytes the whole
buffer is passed to `transcribe_audio_chunk` and the buffer is replaced by
its last `overlap` bytes (`audio_buffer[-overlap:]`). -/
def workerStep (st : WorkerState) (frame : List ℕ) : WorkerState :=
  let buf := st.buffer ++ frame
  if buffer_size ≤ buf.length then
    { buffer := buf.drop (buf.length - overlap), asrCalls := st.asrCalls ++ [buf] }
  else
    { buffer := buf, asrCalls := st.asrCalls }

/-- The worker loop after the stop signal (`is_recording = False`): the
`while self.is_recording or not self.audio_queue.empty()` loop keeps running
exactly until the queue is empty, consuming the queued frames in FIFO order
(`teams_transcription.py` line 94).  The loop performs no further work once
the queue is drained. -/
def worker_drain (st : WorkerState) (frames : List (List ℕ)) : WorkerState :=
  frames.foldl workerStep st

/-- A whole worker run from the initial empty buffer over a frame sequence. -/
def worker_run (frames : List (List ℕ)) : WorkerState :=
  worker_drain ⟨[], []⟩ frames

/-- The guard inside `transcribe_audio_chunk` (`teams_transcription.py`
line 75): the Whisper model is invoked only when the chunk holds at least
`sample_rate * 0.5` samples (one sample per two bytes). -/
def chunk_meets_min_duration (audio : List ℕ) : Bool :=
  decide (sample_rate / 2 ≤ audio.length / 2)

/-! ## Speaker segmentation, from `mp4_transcription.py` lines 124-156 -/

/-- A Whisper timed segment: `{start, end, text}`.  (`endTime` models the
dict key `end`, which is a Lean keyword.) -/
structure Segment where
  start : ℚ
  endTime : ℚ
  text : List Char
deriving Repr, DecidableEq

/-- A segment together with the `speaker` key added by `detect_speakers`
(`segment_with_speaker['speaker'] = current_speaker`). -/
structure SpeakerSegment where
  seg : Segment
  speaker : ℕ
deriving Repr, DecidableEq

/-- The `i > 0` iterations of the loop in `detect_speakers`
(`mp4_transcription.py` lines 141-154): for each segment the pause
`segment['start'] - segments[i-1]['end']` is compared with `min_pause`; on a
long pause the running counter is incremented; the segment is copied and the
counter stored under `speaker`. -/
def detectSpeakersAux (min_pause : ℚ) (current_speaker : ℕ) (prev : Segment) :
    List Segment → List SpeakerSegment
  | [] => []
  | seg :: rest =>
    let sp := if min_pause ≤ seg.start - prev.endTime then
      current_speaker + 1 else current_speaker
    ⟨seg, sp⟩ :: detectSpeakersAux min_pause sp seg rest

/-- `detect_speakers(segments, min_pause=2.0)` (`mp4_transcription.py`
lines 124-156): empty input short-circuits to `[]`; the first segment gets
the initial counter value 1; later segments go through the pause check. -/
def detect_speakers (min_pause : ℚ) : List Segment → List SpeakerSegment
  | [] => []
  | seg :: rest => ⟨seg, 1⟩ :: detectSpeakersAux min_pause 1 seg rest

/-! ### Helper lemmas about `detect_speakers` -/

theorem detectSpeakersAux_lower (min_pause : ℚ) (c : ℕ) (prev : Segment)
    (l : List Segment) :
    ∀ x ∈ detectSpeakersAux min_pause c prev l, c ≤ x.speaker := by
  induction l generalizing c prev with
  | nil => intro x hx; simp [detectSpeakersAux] at hx
  | cons s rest ih =>
    intro x hx
    simp only [detectSpeakersAux, List.mem_cons] at hx
    rcases hx with rfl | hx
    · by_cases h : min_pause ≤ s.start - prev.endTime <;>
        simp [h, Nat.le_succ_of_le]
    · have := ih (if min_pause ≤ s.start - prev.endTime then c + 1 else c) s x hx
      split at this <;> omega

theorem detectSpeakersAux_chain (min_pause : ℚ) (c : ℕ) (prev : Segment)
    (l : List Segment) :
    List.Chain' (fun a b => a ≤ b)
      ((detectSpeakersAux min_pause c prev l).map SpeakerSegment.speaker) := by
  induction l generalizing c prev with
  | nil => simp [detectSpeakersAux]
  | cons s rest ih =>
    simp only [detectSpeakersAux, List.map_cons]
    rw [List.chain'_cons']
    refine ⟨?_, ih _ s⟩
    intro y hy
    have hy' : y ∈ (detectSpeakersAux min_pause
        (if min_pause ≤ s.start - prev.endTime then c + 1 else c) s rest).map
        SpeakerSegment.speaker := List.mem_of_mem_head? hy
    rcases List.mem_map.1 hy' with ⟨x, hx, rfl⟩
    exact detectSpeakersAux_lower _ _ _ _ x hx

theorem detectSpeakersAux_map_seg (min_pause : ℚ) (c : ℕ) (prev : Segment)
    (l : List Segment) :
    (detectSpeakersAux min_pause c prev l).map SpeakerSegment.seg = l := by
  induction l generalizing c prev with
  | nil => simp [detectSpeakersAux]
  | cons s rest ih => simp [detectSpeakersAux, ih]

theorem detect_speakers_map_seg (min_pause : ℚ) (segs : List Segment) :
    (detect_speakers min_pause segs).map SpeakerSegment.seg = segs := by
  cases segs with
  | nil => simp [detect_speakers]
  | cons s rest => simp [detect_speakers, detectSpeakersAux_map_seg]

theorem detect_speakers_length (min_pause : ℚ) (segs : List Segment) :
    (detect_speakers min_pause segs).length = segs.length := by
  have h := congrArg List.length (detect_speakers_map_seg min_pause segs)
  simpa using h

/-! ## Claim C4 -/

/-- Claim C4: `detect_speakers` applied to the three segments with
(start, end) pairs (0,1), (1.5,2), (5,6) assigns speaker ids [1,1,2] when
`min_pause = 2.0` (the 3.0 s pause before the third segment crosses the
threshold), and assigns [1,1,1] when `min_pause = 10.0` on the same input. -/
theorem C4_test_vectors (t1 t2 t3 : List Char) :
    (detect_speakers 2 [⟨0, 1, t1⟩, ⟨3/2, 2, t2⟩, ⟨5, 6, t3⟩]).map
      SpeakerSegment.speaker = [1, 1, 2] ∧
    (detect_speakers 10 [⟨0, 1, t1⟩, ⟨3/2, 2, t2⟩, ⟨5, 6, t3⟩]).map
      SpeakerSegment.speaker = [1, 1, 1] := by
  constructor <;> norm_num [detect_speakers, detectSpeakersAux]

/-! ## Claim C5 -/

/-- Claim C5: for every non-empty ordered list of timed segments and every
`min_pause`, the sequence of speaker ids produced by `detect_speakers` starts
at 1, is monotonically non-decreasing, and every assigned id is ≥ 1. -/
theorem C5_monotone_ids (min_pause : ℚ) (segs : List Segment)
    (h : segs ≠ []) :
    ((detect_speakers min_pause segs).map SpeakerSegment.speaker).head? =
      some 1 ∧
    List.Chain' (fun a b => a ≤ b)
      ((detect_speakers min_pause segs).map SpeakerSegment.speaker) ∧
    ((detect_speakers min_pause segs).map SpeakerSegment.speaker).all
      (fun i => decide (1 ≤ i)) = true := by
  cases segs with
  | nil => exact absurd rfl h
  | cons s rest =>
    refine ⟨by simp [detect_speakers], ?_, ?_⟩
    · simp only [detect_speakers, List.map_cons]
      rw [List.chain'_cons']
      refine ⟨?_, detectSpeakersAux_chain _ _ _ _⟩
      intro y hy
      have hy' : y ∈ (detectSpeakersAux min_pause 1 s rest).map
          SpeakerSegment.speaker := List.mem_of_mem_head? hy
      rcases List.mem_map.1 hy' with ⟨x, hx, rfl⟩
      exact detectSpeakersAux_lower _ _ _ _ x hx
    · rw [List.all_eq_true]
      intro i hi
      rcases List.mem_map.1 hi with ⟨x, hx, rfl⟩
      simp only [detect_speakers, List.mem_cons] at hx
      rcases hx with rfl | hx
      · simp
      · simp only [decide_eq_true_eq]
        exact detectSpeakersAux_lower _ _ _ _ x hx

/-- Witness for C5 on the one-segment input (0,1). -/
theorem C5_witness :
    ((detect_speakers 2 [⟨0, 1, []⟩]).map SpeakerSegment.speaker).head? =
      some 1 ∧
    List.Chain' (fun a b => a ≤ b)
      ((detect_speakers 2 [⟨0, 1, []⟩]).map SpeakerSegment.speaker) ∧
    ((detect_speakers 2 [⟨0, 1, []⟩]).map SpeakerSegment.speaker).all
      (fun i => decide (1 ≤ i)) = true :=
  C5_monotone_ids 2 [⟨0, 1, []⟩] (by simp)

/-! ## Claim C8 -/

/-- Claim C8: `detect_speakers` is pure (its result carries every input
segment unchanged, in order, as the `seg` component — the embedding of
`segment.copy()` plus key insertion), its output length equals the input
length, the output is empty exactly when the input is empty, and a
single-segment input yields speaker id 1. -/
theorem C8_pure_shape (min_pause : ℚ) (segs : List Segment) :
    (detect_speakers min_pause segs).length = segs.length ∧
    (detect_speakers min_pause segs = [] ↔ segs = []) ∧
    (detect_speakers min_pause segs).map SpeakerSegment.seg = segs ∧
    ∀ s : Segment, detect_speakers min_pause [s] = [⟨s, 1⟩] := by
  refine ⟨detect_speakers_length _ _, ?_, detect_speakers_map_seg _ _, ?_⟩
  · constructor
    · intro h
      have := detect_speakers_length min_pause segs
      rw [h] at this
      exact List.eq_nil_of_length_eq_zero this.symm
    · intro h; subst h; simp [detect_speakers]
  · intro s; simp [detect_speakers, detectSpeakersAux]

/-- A silent byte buffer of `n` zero bytes (concrete test input). -/
def zeros (n : ℕ) : List ℕ := List.replicate n 0

theorem zeros_length (n : ℕ) : (zeros n).length = n := by
  simp [zeros]

/-- Unfolding of `workerStep` in the dispatch case (buffer full). -/
theorem workerStep_dispatch (st : WorkerState) (frame : List ℕ)
    (h : buffer_size ≤ (st.buffer ++ frame).length) :
    workerStep st frame =
      ⟨(st.buffer ++ frame).drop ((st.buffer ++ frame).length - overlap),
       st.asrCalls ++ [st.buffer ++ frame]⟩ := by
  simp only [workerStep, if_pos h]

/-- Unfolding of `workerStep` when the buffer is still short. -/
theorem workerStep_skip (st : WorkerState) (frame : List ℕ)
    (h : ¬ buffer_size ≤ (st.buffer ++ frame).length) :
    workerStep st frame = ⟨st.buffer ++ frame, st.asrCalls⟩ := by
  simp only [workerStep, if_neg h]

/-! ## Claim C1 -/

/-- Claim C1, counterexample: append a single 96002-byte frame (48001
samples).  The byte count first reaches the 96000-byte target with this
frame, yet the window dispatched to `transcribe_audio_chunk` is the whole
accumulated buffer — 48001 samples, not exactly `target_window_samples`. -/
theorem C1_counterexample :
    (worker_run [zeros 96002]).asrCalls = [zeros 96002] ∧
    ¬ ((zeros 96002).length / 2 = target_window_samples) := by
  have h : buffer_size ≤ (([] : List ℕ) ++ zeros 96002).length := by
    rw [List.nil_append, zeros_length, buffer_size_eq]
    omega
  constructor
  · show (List.foldl workerStep ⟨[], []⟩ [zeros 96002]).asrCalls = _
    rw [List.foldl_cons, List.foldl_nil, workerStep_dispatch ⟨[], []⟩ _ h]
    simp
  · rw [zeros_length]
    simp only [target_window_samples, sample_rate]
    norm_num

/-- Claim C1, amended: when appending a frame makes the accumulated buffer
reach `buffer_size` bytes, the window dispatched to the ASR engine is the
entire accumulated buffer — at least `target_window_samples` samples,
possibly more — and immediately afterwards the internal buffer contains
exactly `overlap` bytes, i.e. `target_window_samples × 0.25` samples, which
are the trailing bytes of the window just dispatched. -/
theorem C1_window_dispatch (buf frame : List ℕ) (calls : List (List ℕ))
    (h : buffer_size ≤ (buf ++ frame).length) :
    (workerStep ⟨buf, calls⟩ frame).asrCalls = calls ++ [buf ++ frame] ∧
    target_window_samples ≤ (buf ++ frame).length / 2 ∧
    (workerStep ⟨buf, calls⟩ frame).buffer.length = overlap ∧
    (workerStep ⟨buf, calls⟩ frame).buffer.length / 2 =
      target_window_samples / 4 ∧
    (workerStep ⟨buf, calls⟩ frame).buffer <:+ buf ++ frame := by
  have hs := workerStep_dispatch ⟨buf, calls⟩ frame h
  have hov : overlap ≤ (buf ++ frame).length := by
    rw [overlap_eq]; rw [buffer_size_eq] at h; omega
  have hb : (workerStep ⟨buf, calls⟩ frame).buffer =
      (buf ++ frame).drop ((buf ++ frame).length - overlap) := by rw [hs]
  have hcalls : (workerStep ⟨buf, calls⟩ frame).asrCalls =
      calls ++ [buf ++ frame] := by rw [hs]
  refine ⟨hcalls, ?_, ?_, ?_, ?_⟩
  · rw [buffer_size_eq] at h
    simp only [target_window_samples, sample_rate]
    omega
  · rw [hb, List.length_drop]
    omega
  · rw [hb, List.length_drop]
    rw [overlap_eq] at hov ⊢
    simp only [target_window_samples, sample_rate]
    omega
  · rw [hb]
    exact List.drop_suffix _ _

/-- Witness for C1_window_dispatch at a single frame of exactly
`buffer_size` bytes. -/
theorem C1_witness :
    (workerStep ⟨[], []⟩ (zeros 96000)).asrCalls =
      [] ++ [[] ++ zeros 96000] ∧
    target_window_samples ≤ (([] : List ℕ) ++ zeros 96000).length / 2 ∧
    (workerStep ⟨[], []⟩ (zeros 96000)).buffer.length = overlap ∧
    (workerStep ⟨[], []⟩ (zeros 96000)).buffer.length / 2 =
      target_window_samples / 4 ∧
    (workerStep ⟨[], []⟩ (zeros 96000)).buffer <:+ [] ++ zeros 96000 :=
  C1_window_dispatch [] (zeros 96000) []
    (by rw [List.nil_append, zeros_length, buffer_size_eq])

/-! ## Claim C2 -/

/-- Claim C2, counterexample: stop with one queued 16000-byte frame
(0.5 s of audio).  The drain loop consumes it, the leftover buffer passes
the 0.5 s minimum-duration test of `transcribe_audio_chunk`, yet no ASR
call of any kind is performed: the worker exits and the audio is
discarded, where the claim demands one best-effort final call. -/
theorem C2_counterexample :
    (worker_drain ⟨[], []⟩ [zeros 16000]).asrCalls = [] ∧
    chunk_meets_min_duration
      (worker_drain ⟨[], []⟩ [zeros 16000]).buffer = true := by
  have h : ¬ buffer_size ≤ (([] : List ℕ) ++ zeros 16000).length := by
    rw [List.nil_append, zeros_length, buffer_size_eq]
    omega
  have hstep : worker_drain ⟨[], []⟩ [zeros 16000] = ⟨[] ++ zeros 16000, []⟩ := by
    show List.foldl workerStep ⟨[], []⟩ [zeros 16000] = _
    rw [List.foldl_cons, List.foldl_nil, workerStep_skip ⟨[], []⟩ _ h]
  rw [hstep]
  refine ⟨rfl, ?_⟩
  rw [chunk_meets_min_duration, List.nil_append, zeros_length]
  simp [sample_rate]

theorem worker_drain_invariant (st : WorkerState) (frames : List (List ℕ))
    (hb : st.buffer.length < buffer_size)
    (hc : ∀ w ∈ st.asrCalls, buffer_size ≤ w.length) :
    (∀ w ∈ (worker_drain st frames).asrCalls, buffer_size ≤ w.length) ∧
    (worker_drain st frames).buffer.length < buffer_size := by
  induction frames generalizing st with
  | nil => exact ⟨hc, hb⟩
  | cons f fs ih =>
    simp only [worker_drain, List.foldl_cons] at *
    by_cases h : buffer_size ≤ (st.buffer ++ f).length
    · rw [workerStep_dispatch st f h]
      refine ih _ ?_ ?_
      · simp only [List.length_drop]
        rw [buffer_size_eq] at *
        rw [overlap_eq]
        omega
      · intro w hw
        simp only [List.mem_append, List.mem_singleton] at hw
        rcases hw with hw | rfl
        · exact hc w hw
        · exact h
    · rw [workerStep_skip st f h]
      refine ih _ ?_ ?_
      · show (st.buffer ++ f).length < buffer_size
        omega
      · intro w hw
        exact hc w hw

/-- Claim C2, amended: after the stop signal the worker consumes every
queued frame, but the only ASR calls it makes are on full accumulated
buffers of at least `buffer_size` bytes; the remaining buffered audio is
always shorter than the target window and is discarded without a final
best-effort ASR call, regardless of whether it is at least 0.5 s long. -/
theorem C2_drain_no_final_call (buf : List ℕ) (frames : List (List ℕ))
    (hb : buf.length < buffer_size) :
    (∀ w ∈ (worker_drain ⟨buf, []⟩ frames).asrCalls,
      buffer_size ≤ w.length) ∧
    (worker_drain ⟨buf, []⟩ frames).buffer.length < buffer_size :=
  worker_drain_invariant ⟨buf, []⟩ frames hb (by intro w hw; simp at hw)

/-- Witness for C2_drain_no_final_call: one queued single-byte frame. -/
theorem C2_witness :
    (worker_drain ⟨[], []⟩ [[0]]).buffer.length < buffer_size :=
  (C2_drain_no_final_call [] [[0]]
    (by rw [List.length_nil, buffer_size_eq]; omega)).2

/-! ## String helpers for the report, from `mp4_transcription.py` -/

/-- Python whitespace test used by `str.strip()` (ASCII whitespace set). -/
def isPySpace (c : Char) : Bool :=
  c == ' ' || c == '\t' || c == '\n' || c == '\r' || c == '\x0B' || c == '\x0C'

/-- `str.strip()`: remove leading and trailing whitespace. -/
def pyStrip (s : List Char) : List Char :=
  ((s.dropWhile isPySpace).reverse.dropWhile isPySpace).reverse

/-- Decimal rendering of a natural number, as in Python `str(n)`. -/
def natChars (n : ℕ) : List Char := (Nat.repr n).toList

/-- Decimal rendering of an integer, as in Python `str(n)`. -/
def intChars (n : ℤ) : List Char :=
  if n < 0 then '-' :: natChars n.natAbs else natChars n.toNat

/-- Python `f"{n:02d}"`: zero-pad to two digits. -/
def pad2 (n : ℤ) : List Char :=
  if 0 ≤ n ∧ n < 10 then '0' :: natChars n.toNat else intChars n

/-- Python `int(x)`: truncation toward zero. -/
def pyInt (q : ℚ) : ℤ := if 0 ≤ q then ⌊q⌋ else -⌊-q⌋

/-- `format_timestamp` (`mp4_transcription.py` lines 78-92):
`total_seconds = int(timedelta(seconds=s).total_seconds())`, then
`divmod(total_seconds, 3600)` and `divmod(remainder, 60)` (Python divmod is
floor-based, `Int.fdiv`/`Int.fmod`), rendered `HH:MM:SS` with `{:02d}`. -/
def format_timestamp (seconds : ℚ) : List Char :=
  let total := pyInt seconds
  let hours := Int.fdiv total 3600
  let remainder := Int.fmod total 3600
  let minutes := Int.fdiv remainder 60
  let secs := Int.fmod remainder 60
  pad2 hours ++ [':'] ++ pad2 minutes ++ [':'] ++ pad2 secs

theorem format_timestamp_zero : format_timestamp 0 = "00:00:00".toList := by
  decide

/-! ## `save_transcript`, from `mp4_transcription.py` lines 158-234.

The function writes one report through a sequence of `f.write` calls on the
file opened at the final output path.  `save_chunks` below is that exact
sequence of written strings, as a function of the Whisper result, the
source path, the formatted wall-clock time, the model size and the two
formatting flags. -/

/-- The Whisper result dict fields used by `save_transcript`:
`result['text']`, `result['segments']`, `result.get('language', ...)`. -/
structure WhisperResult where
  text : List Char
  segments : List Segment
  language : List Char
deriving Repr, DecidableEq

/-- Lines 189-191: when `include_speakers` the segments are replaced by
`detect_speakers(segments)` (default `min_pause = 2.0`); otherwise the raw
segments are used (they carry no `speaker` key; the placeholder 0 here is
never read because the speaker field is only formatted when
`include_speakers` is true). -/
def speaker_view (include_speakers : Bool) (segs : List Segment) :
    List SpeakerSegment :=
  if include_speakers then detect_speakers 2 segs
  else segs.map (fun s => ⟨s, 0⟩)

/-- `"=" * 60`. -/
def eq60 : List Char := List.replicate 60 '='

/-- `"-" * 40`. -/
def dash40 : List Char := List.replicate 40 '-'

/-- Header writes, lines 179-186. -/
def header_chunks (mp4_path now model_size language : List Char) :
    List (List Char) :=
  [eq60 ++ "\n".toList,
   "MP4動画ファイル音声文字起こし結果\n".toList,
   eq60 ++ "\n".toList,
   "元ファイル: ".toList ++ mp4_path ++ "\n".toList,
   "処理日時: ".toList ++ now ++ "\n".toList,
   "Whisperモデル: ".toList ++ model_size ++ "\n".toList,
   "検出言語: ".toList ++ language ++ "\n".toList,
   eq60 ++ "\n\n".toList]

/-- Full-text block writes, lines 193-197: `full_text = result['text'].strip()`. -/
def fulltext_chunks (text : List Char) : List (List Char) :=
  ["【全文】\n".toList,
   dash40 ++ "\n".toList,
   pyStrip text ++ "\n\n".toList]

/-- Detail-block header writes, lines 199-201. -/
def detail_header_chunks : List (List Char) :=
  ["【詳細（タイムスタンプ付き）】\n".toList,
   dash40 ++ "\n".toList]

/-- One per-segment line, lines 203-217: timestamps and speaker when both
flags are set; timestamps alone when only `include_timestamps`; bare text
otherwise. -/
def segLine (include_timestamps include_speakers : Bool)
    (s : SpeakerSegment) : List Char :=
  let start_time := format_timestamp s.seg.start
  let end_time := format_timestamp s.seg.endTime
  let text := pyStrip s.seg.text
  if include_timestamps && include_speakers then
    "[".toList ++ start_time ++ " - ".toList ++ end_time ++ "] ".toList ++
      "話者".toList ++ natChars s.speaker ++ ": ".toList ++ text ++ "\n".toList
  else if include_timestamps then
    "[".toList ++ start_time ++ " - ".toList ++ end_time ++ "] ".toList ++
      text ++ "\n".toList
  else
    text ++ "\n".toList

/-- The per-segment detail writes (the `for segment in segments` loop). -/
def detail_chunks (include_timestamps include_speakers : Bool)
    (segs : List SpeakerSegment) : List (List Char) :=
  segs.map (segLine include_timestamps include_speakers)

/-- `segments[-1]['end'] if segments else 0` (line 222). -/
def last_end (segs : List SpeakerSegment) : ℚ :=
  match segs.getLast? with
  | some s => s.seg.endTime
  | none => 0

/-- `max([s.get('speaker', 1) for s in segments]) if segments else 1`
(line 225; every segment carries a `speaker` key on this path). -/
def max_speaker (segs : List SpeakerSegment) : ℕ :=
  match segs with
  | [] => 1
  | _ => (segs.map SpeakerSegment.speaker).foldl max 0

/-- Statistics writes, lines 219-227. -/
def stats_chunks (include_speakers : Bool) (segs : List SpeakerSegment)
    (full_text : List Char) : List (List Char) :=
  ["\n".toList ++ eq60 ++ "\n".toList,
   "【統計情報】\n".toList,
   "総発話時間: ".toList ++ format_timestamp (last_end segs) ++ "\n".toList,
   "セグメント数: ".toList ++ natChars segs.length ++ "\n".toList] ++
  (if include_speakers then
    ["推定話者数: ".toList ++ natChars (max_speaker segs) ++ "\n".toList]
  else []) ++
  ["総文字数: ".toList ++ natChars (pyStrip full_text).length ++ "\n".toList]

/-- The full `f.write` sequence of `save_transcript`. -/
def save_chunks (res : WhisperResult) (mp4_path now model_size : List Char)
    (include_speakers include_timestamps : Bool) : List (List Char) :=
  let segs := speaker_view include_speakers res.segments
  header_chunks mp4_path now model_size res.language ++
    fulltext_chunks res.text ++
    detail_header_chunks ++
    detail_chunks include_timestamps include_speakers segs ++
    stats_chunks include_speakers segs res.text

/-- Executing the write sequence under `with open(output_file, 'w')`
(lines 177 and 232-234): opening creates/truncates the file at the final
output path; each write appends; if the k-th write raises, the `with`
block closes the file (the bytes already written remain on disk at the
output path) and the `except` clause re-raises, so the call fails.  With
no failure every chunk is written.  The second component is the file
content readable at the output path afterwards. -/
def run_save (chunks : List (List Char)) (failAt : Option ℕ) :
    Except Unit Unit × Option (List Char) :=
  match failAt with
  | none => (Except.ok (), some chunks.flatten)
  | some k =>
    if k < chunks.length then (Except.error (), some ((chunks.take k).flatten))
    else (Except.ok (), some chunks.flatten)

theorem speaker_view_nil (b : Bool) :
    speaker_view b ([] : List Segment) = [] := by
  cases b <;> simp [speaker_view, detect_speakers]

/-! ## Claim C3 -/

/-- Claim C3, counterexample: a concrete `save_transcript` run (text
`"hi"`, no segments) in which the third write fails.  The operation fails,
but the output path holds a readable partial file: the first two chunks,
not the complete report and not nothing. -/
theorem C3_counterexample :
    (run_save (save_chunks ⟨"hi".toList, [], "ja".toList⟩ "a.mp4".toList
      "t".toList "base".toList true true) (some 2)).1 = Except.error () ∧
    (run_save (save_chunks ⟨"hi".toList, [], "ja".toList⟩ "a.mp4".toList
      "t".toList "base".toList true true) (some 2)).2 ≠ none ∧
    (run_save (save_chunks ⟨"hi".toList, [], "ja".toList⟩ "a.mp4".toList
      "t".toList "base".toList true true) (some 2)).2 ≠
      some (save_chunks ⟨"hi".toList, [], "ja".toList⟩ "a.mp4".toList
        "t".toList "base".toList true true).flatten := by
  refine ⟨rfl, by decide, by decide⟩

/-- Claim C3, amended: the write is not all-or-nothing.  `save_transcript`
writes directly to the final output path; when the k-th write fails the
operation fails (the exception propagates to the caller), but a readable
partially written file — the flattened prefix of the report written so
far — is left at the output path.  Only a failure-free run produces the
complete report. -/
theorem C3_failure_leaves_partial (res : WhisperResult)
    (mp4_path now model_size : List Char) (sp ts : Bool) (k : ℕ)
    (h : k < (save_chunks res mp4_path now model_size sp ts).length) :
    (run_save (save_chunks res mp4_path now model_size sp ts) (some k)).1 =
      Except.error () ∧
    (run_save (save_chunks res mp4_path now model_size sp ts) (some k)).2 =
      some (((save_chunks res mp4_path now model_size sp ts).take k).flatten) ∧
    ((save_chunks res mp4_path now model_size sp ts).take k).flatten <+:
      (save_chunks res mp4_path now model_size sp ts).flatten ∧
    run_save (save_chunks res mp4_path now model_size sp ts) none =
      (Except.ok (),
       some (save_chunks res mp4_path now model_size sp ts).flatten) := by
  refine ⟨?_, ?_, ?_, rfl⟩
  · simp [run_save, h]
  · simp [run_save, h]
  · conv_rhs =>
      rw [← List.take_append_drop k
        (save_chunks res mp4_path now model_size sp ts), List.flatten_append]
    exact List.prefix_append _ _

/-- Witness for C3_failure_leaves_partial: the concrete run of
C3_counterexample, failing at the third write. -/
theorem C3_witness :
    (run_save (save_chunks ⟨"hi".toList, [], "ja".toList⟩ "a.mp4".toList
      "t".toList "base".toList true true) (some 2)).1 = Except.error () ∧
    (run_save (save_chunks ⟨"hi".toList, [], "ja".toList⟩ "a.mp4".toList
      "t".toList "base".toList true true) (some 2)).2 =
      some (((save_chunks ⟨"hi".toList, [], "ja".toList⟩ "a.mp4".toList
        "t".toList "base".toList true true).take 2).flatten) ∧
    ((save_chunks ⟨"hi".toList, [], "ja".toList⟩ "a.mp4".toList
      "t".toList "base".toList true true).take 2).flatten <+:
      (save_chunks ⟨"hi".toList, [], "ja".toList⟩ "a.mp4".toList
        "t".toList "base".toList true true).flatten ∧
    run_save (save_chunks ⟨"hi".toList, [], "ja".toList⟩ "a.mp4".toList
      "t".toList "base".toList true true) none =
      (Except.ok (),
       some (save_chunks ⟨"hi".toList, [], "ja".toList⟩ "a.mp4".toList
         "t".toList "base".toList true true).flatten) :=
  C3_failure_leaves_partial ⟨"hi".toList, [], "ja".toList⟩ "a.mp4".toList
    "t".toList "base".toList true true 2 (by decide)

/-! ## Claim C7 -/

/-- Claim C7, counterexample: with timestamps disabled and speakers
enabled, the per-segment line for a segment with text "hello" and
speaker 1 is the bare text — the enabled speaker field is absent, so the
two fields are not independently toggleable. -/
theorem C7_counterexample :
    segLine false true ⟨⟨0, 1, "hello".toList⟩, 1⟩ = "hello\n".toList ∧
    ¬ ("話者".toList <:+: segLine false true ⟨⟨0, 1, "hello".toList⟩, 1⟩) := by
  decide

/-- Modelled from the amended claim: each detail line consists of an
optional timestamp field, present exactly when `include_timestamps` is
enabled, then an optional speaker field, present exactly when BOTH
`include_timestamps` and `include_speakers` are enabled (the speaker field
cannot appear without timestamps), then the stripped text. -/
def segLineAmended (include_timestamps include_speakers : Bool)
    (s : SpeakerSegment) : List Char :=
  (if include_timestamps then
    "[".toList ++ format_timestamp s.seg.start ++ " - ".toList ++
      format_timestamp s.seg.endTime ++ "] ".toList
  else []) ++
  (if include_timestamps && include_speakers then
    "話者".toList ++ natChars s.speaker ++ ": ".toList
  else []) ++
  pyStrip s.seg.text ++ "\n".toList

/-- Claim C7, amended: for every combination of the two flags and every
segment, the line written by `save_transcript` has the timestamp field
exactly when `include_timestamps` is enabled, and the speaker field
exactly when both flags are enabled; `[start - end] speaker: text` appears
only in the both-enabled case, and disabling timestamps also drops the
speaker field. -/
theorem C7_field_toggles (include_timestamps include_speakers : Bool)
    (s : SpeakerSegment) :
    segLine include_timestamps include_speakers s =
      segLineAmended include_timestamps include_speakers s := by
  cases include_timestamps <;> cases include_speakers <;>
    simp [segLine, segLineAmended, List.append_assoc]

/-! ## Claim C9 -/

set_option maxRecDepth 40000 in
/-- Claim C9, counterexample: for the ASR result whose full-text string is
`"hi "` (trailing space), the report does not contain that string
verbatim anywhere — `save_transcript` writes `result['text'].strip()`,
which is `"hi"`. -/
theorem C9_counterexample :
    ¬ ("hi ".toList <:+:
      (save_chunks ⟨"hi ".toList, [], "ja".toList⟩ "a.mp4".toList
        "t".toList "base".toList true true).flatten) := by
  decide

/-- Claim C9, amended: for every ASR result, the report contains the
whitespace-stripped full text `result['text'].strip()` verbatim in its
full-text block, for every combination of the two formatting flags (so a
full-text string without surrounding whitespace does appear verbatim). -/
theorem C9_full_text_in_report (res : WhisperResult)
    (mp4_path now model_size : List Char)
    (include_speakers include_timestamps : Bool) :
    pyStrip res.text <:+:
      (save_chunks res mp4_path now model_size include_speakers
        include_timestamps).flatten := by
  refine ⟨(header_chunks mp4_path now model_size res.language).flatten ++
      ("【全文】\n".toList ++ (dash40 ++ "\n".toList)),
    "\n\n".toList ++
      (detail_header_chunks ++
        detail_chunks include_timestamps include_speakers
          (speaker_view include_speakers res.segments) ++
        stats_chunks include_speakers
          (speaker_view include_speakers res.segments) res.text).flatten, ?_⟩
  simp [save_chunks, fulltext_chunks, header_chunks, detail_header_chunks,
    List.flatten_append, List.append_assoc]

/-! ## Claim C10 -/

/-- Claim C10: `save_transcript` on a result with an empty segment list
(the function is total in the embedding): the per-segment detail block is
empty, the statistics block reports a total duration of 00:00:00 and a
segment count of 0, and with speakers enabled an estimated speaker count
of 1. -/
theorem C10_empty_segments (text lang mp4_path now model_size : List Char)
    (sp ts : Bool) :
    detail_chunks ts sp (speaker_view sp []) = [] ∧
    "総発話時間: 00:00:00\n".toList ∈
      save_chunks ⟨text, [], lang⟩ mp4_path now model_size sp ts ∧
    "セグメント数: 0\n".toList ∈
      save_chunks ⟨text, [], lang⟩ mp4_path now model_size sp ts ∧
    "推定話者数: 1\n".toList ∈
      save_chunks ⟨text, [], lang⟩ mp4_path now model_size true ts := by
  have hdur : "総発話時間: ".toList ++
      format_timestamp (last_end ([] : List SpeakerSegment)) ++ "\n".toList =
      "総発話時間: 00:00:00\n".toList := by
    rw [show last_end ([] : List SpeakerSegment) = 0 from rfl,
      format_timestamp_zero]
    decide
  have hstats : ∀ (b : Bool) (ft : List Char),
      "総発話時間: 00:00:00\n".toList ∈ stats_chunks b [] ft := by
    intro b ft
    rw [stats_chunks]
    refine List.mem_append.mpr (Or.inl (List.mem_append.mpr (Or.inl ?_)))
    rw [← hdur]
    simp
  have hcnt : ∀ (b : Bool) (ft : List Char),
      "セグメント数: 0\n".toList ∈ stats_chunks b [] ft := by
    intro b ft
    rw [stats_chunks]
    refine List.mem_append.mpr (Or.inl (List.mem_append.mpr (Or.inl ?_)))
    have h0 : "セグメント数: ".toList ++
        natChars ([] : List SpeakerSegment).length ++ "\n".toList =
        "セグメント数: 0\n".toList := by decide
    rw [← h0]
    simp
  have hspk : ∀ (ft : List Char),
      "推定話者数: 1\n".toList ∈ stats_chunks true [] ft := by
    intro ft
    rw [stats_chunks]
    refine List.mem_append.mpr (Or.inl (List.mem_append.mpr (Or.inr ?_)))
    have h1 : "推定話者数: ".toList ++
        natChars (max_speaker ([] : List SpeakerSegment)) ++ "\n".toList =
        "推定話者数: 1\n".toList := by decide
    rw [if_pos rfl, ← h1]
    simp
  refine ⟨by rw [speaker_view_nil]; simp [detail_chunks], ?_, ?_, ?_⟩
  · simp only [save_chunks, speaker_view_nil]
    exact List.mem_append.mpr (Or.inr (hstats _ _))
  · simp only [save_chunks, speaker_view_nil]
    exact List.mem_append.mpr (Or.inr (hcnt _ _))
  · simp only [save_chunks, speaker_view_nil]
    exact List.mem_append.mpr (Or.inr (hspk _))

/-! ## Batch processing, from `batch_mp4_processor.py` -/

/-- The two result lists of `BatchMP4Processor`: `self.processed_files`
(pairs of mp4 path and output path) and `self.failed_files` (pairs of mp4
path and stringified error). -/
structure BatchState where
  processed : List (List Char × List Char)
  failed : List (List Char × List Char)
deriving Repr, DecidableEq

/-- One iteration of the `for i, mp4_path in enumerate(file_paths, 1)` loop
of `process_files` (`batch_mp4_processor.py` lines 58-82): `process_mp4` is
attempted inside `try`; on success the pair is appended to
`processed_files`, on any exception the pair (path, str(e)) is appended to
`failed_files` and the loop continues with the next file. -/
def processOne (st : BatchState)
    (file : List Char × Except (List Char) (List Char)) : BatchState :=
  match file.2 with
  | Except.ok out => { st with processed := st.processed ++ [(file.1, out)] }
  | Except.error e => { st with failed := st.failed ++ [(file.1, e)] }

/-- `process_files` over a list of files, each tagged with the outcome its
`process_mp4` call would produce (the call chain to Whisper/MoviePy is the
external collaborator; its outcome per file is an input of the model). -/
def process_files (files : List (List Char × Except (List Char) (List Char))) :
    BatchState :=
  files.foldl processOne ⟨[], []⟩

/-- `Path(p).name`: the component after the last slash. -/
def path_name (p : List Char) : List Char :=
  (p.reverse.takeWhile (fun c => c ≠ '/')).reverse

/-- The lines of the `【失敗したファイル】` section of `print_summary`
(`batch_mp4_processor.py` lines 104-107): one line per failed file,
`  ❌ {Path(mp4_path).name}: {error}`. -/
def summary_failed_lines (st : BatchState) : List (List Char) :=
  st.failed.map (fun pe =>
    "  ❌ ".toList ++ path_name pe.1 ++ ": ".toList ++ pe.2)

/-- Tag a (path, output) pair as a successful outcome. -/
def oked (p : List Char × List Char) :
    List Char × Except (List Char) (List Char) :=
  (p.1, Except.ok p.2)

theorem process_files_foldl_ok (st : BatchState)
    (A : List (List Char × List Char)) :
    (A.map oked).foldl processOne st = ⟨st.processed ++ A, st.failed⟩ := by
  induction A generalizing st with
  | nil => simp
  | cons p rest ih =>
    simp only [List.map_cons, List.foldl_cons, processOne, oked]
    rw [ih]
    simp

/-! ## Claim C6 -/

/-- Claim C6: in a batch run where every file before and after file `k`
succeeds and file `k` alone raises (error text `e`), every other file is
still attempted and recorded as processed, in order, and the failure list —
which `print_summary` prints one line per entry — contains exactly the one
entry naming file `k` with its error.  In particular processed + failed
cover all N files. -/
theorem C6_failure_isolation (A B : List (List Char × List Char))
    (k e : List Char) :
    (process_files (A.map oked ++ [(k, Except.error e)] ++ B.map oked)).failed
      = [(k, e)] ∧
    (process_files (A.map oked ++ [(k, Except.error e)] ++
      B.map oked)).processed = A ++ B ∧
    (process_files (A.map oked ++ [(k, Except.error e)] ++
      B.map oked)).processed.length + 1 =
      (A.map oked ++ [(k, Except.error e)] ++ B.map oked).length ∧
    summary_failed_lines
      (process_files (A.map oked ++ [(k, Except.error e)] ++ B.map oked)) =
      ["  ❌ ".toList ++ path_name k ++ ": ".toList ++ e] := by
  have hrun : process_files (A.map oked ++ [(k, Except.error e)] ++ B.map oked)
      = ⟨A ++ B, [(k, e)]⟩ := by
    rw [process_files, List.foldl_append, List.foldl_append,
      process_files_foldl_ok]
    simp only [List.foldl_cons, List.foldl_nil, processOne]
    rw [process_files_foldl_ok]
    simp
  rw [hrun]
  refine ⟨rfl, rfl, ?_, by simp [summary_failed_lines]⟩
  simp
  omega

end Transcription
